/-
Verification of the GSC-to-BigQuery incremental-sync scripts.

The development shallowly embeds the row-identity hashing, deduplication,
pagination, retry and sink-append logic of the repository's Python scripts:

  * `Sha256`  — a bit-faithful SHA-256 over byte lists (Python `hashlib.sha256`
    with `.hexdigest()`), words as `Nat` reduced mod 2^32;
  * `PyStr`   — the Python string primitives the key derivation uses
    (`strip`, `lower`, `rstrip('/')`, slicing, `"|".join`);
  * `Rev3`    — `gsc_to_bq_rev3_full.py`: `stable_key`, `get_existing_keys`,
    the paged fetch/filter/append loop of `fetch_gsc_data`;
  * `Rev1`    — `gsc-to-bq.py`: same loop, whose body calls the undefined
    name `generate_key`;
  * `WebFF`   — `gsc_to_bq_searchtype_web_fullfetch.py`:
    `generate_expanded_unique_key`, `upload_to_bq`, `fetch_sitewide_batch`;
  * `SA`      — `gsc_to_bq_searchappearance_fullfetch.py`: `get_existing_keys`
    and the duplicate-filtering `upload_to_bq`.

External collaborators (credentials, the BigQuery client, the reporting API
transport) are modelled as parameters: a fetch trace lists, in order, the
outcome of each network call (`err` = transport exception, `ok rows b` =
a page of rows together with whether the subsequent load job succeeds), and
sink queries are modelled by their result.  Python sets of strings are
modelled as lists used up to membership; Python floats carried opaquely
through the pipeline (CTR, Position) are modelled as integers since no
claim depends on their arithmetic.
-/

import Mathlib

namespace Sha256

def w32 : Nat := 4294967296

def rotr (n x : Nat) : Nat := ((x >>> n) ||| (x <<< (32 - n))) % w32

def smallSigma0 (x : Nat) : Nat := (rotr 7 x) ^^^ (rotr 18 x) ^^^ (x >>> 3)

def smallSigma1 (x : Nat) : Nat := (rotr 17 x) ^^^ (rotr 19 x) ^^^ (x >>> 10)

def bigSigma0 (x : Nat) : Nat := (rotr 2 x) ^^^ (rotr 13 x) ^^^ (rotr 22 x)

def bigSigma1 (x : Nat) : Nat := (rotr 6 x) ^^^ (rotr 11 x) ^^^ (rotr 25 x)

def chF (x y z : Nat) : Nat := (x &&& y) ^^^ ((x ^^^ (w32 - 1)) &&& z)

def majF (x y z : Nat) : Nat := (x &&& y) ^^^ (x &&& z) ^^^ (y &&& z)

/-- The 64 round constants, one list per FIPS 180-4 table row. -/
def K : List Nat :=
  [0x428a2f98, 0x71374491, 0xb5c0fbcf, 0xe9b5dba5, 0x3956c25b, 0x59f111f1, 0x923f82a4, 0xab1c5ed5]
  ++ [0xd807aa98, 0x12835b01, 0x243185be, 0x550c7dc3, 0x72be5d74, 0x80deb1fe, 0x9bdc06a7, 0xc19bf174]
  ++ [0xe49b69c1, 0xefbe4786, 0x0fc19dc6, 0x240ca1cc, 0x2de92c6f, 0x4a7484aa, 0x5cb0a9dc, 0x76f988da]
  ++ [0x983e5152, 0xa831c66d, 0xb00327c8, 0xbf597fc7, 0xc6e00bf3, 0xd5a79147, 0x06ca6351, 0x14292967]
  ++ [0x27b70a85, 0x2e1b2138, 0x4d2c6dfc, 0x53380d13, 0x650a7354, 0x766a0abb, 0x81c2c92e, 0x92722c85]
  ++ [0xa2bfe8a1, 0xa81a664b, 0xc24b8b70, 0xc76c51a3, 0xd192e819, 0xd6990624, 0xf40e3585, 0x106aa070]
  ++ [0x19a4c116, 0x1e376c08, 0x2748774c, 0x34b0bcb5, 0x391c0cb3, 0x4ed8aa4a, 0x5b9cca4f, 0x682e6ff3]
  ++ [0x748f82ee, 0x78a5636f, 0x84c87814, 0x8cc70208, 0x90befffa, 0xa4506ceb, 0xbef9a3f7, 0xc67178f2]

structure Hash8 where
  a : Nat
  b : Nat
  c : Nat
  d : Nat
  e : Nat
  f : Nat
  g : Nat
  h : Nat

def H0 : Hash8 :=
  ⟨0x6a09e667, 0xbb67ae85, 0x3c6ef372, 0xa54ff53a, 0x510e527f, 0x9b05688c, 0x1f83d9ab, 0x5be0cd19⟩

/-- Message-schedule extension; `acc` holds the words produced so far, most
recent first, so `w[t-2]` is `acc.getD 1`, `w[t-7]` is `acc.getD 6`, etc. -/
def scheduleAux : Nat → List Nat → List Nat
  | 0, acc => acc.reverse
  | n + 1, acc =>
      scheduleAux n
        (((smallSigma1 (acc.getD 1 0) + acc.getD 6 0 +
           smallSigma0 (acc.getD 14 0) + acc.getD 15 0) % w32) :: acc)

def schedule (ws : List Nat) : List Nat := scheduleAux 48 ws.reverse

def roundStep (kw : Nat × Nat) (s : Hash8) : Hash8 :=
  let t1 := (s.h + bigSigma1 s.e + chF s.e s.f s.g + kw.1 + kw.2) % w32
  let t2 := (bigSigma0 s.a + majF s.a s.b s.c) % w32
  ⟨(t1 + t2) % w32, s.a, s.b, s.c, (s.d + t1) % w32, s.e, s.f, s.g⟩

def add8 (x y : Hash8) : Hash8 :=
  ⟨(x.a + y.a) % w32, (x.b + y.b) % w32, (x.c + y.c) % w32, (x.d + y.d) % w32,
   (x.e + y.e) % w32, (x.f + y.f) % w32, (x.g + y.g) % w32, (x.h + y.h) % w32⟩

def compressBlock (h : Hash8) (block : List Nat) : Hash8 :=
  add8 h ((List.zip K (schedule block)).foldl (fun st kw => roundStep kw st) h)

/-- `n` bytes of `x`, big-endian. -/
def toBytesBE : Nat → Nat → List Nat
  | 0, _ => []
  | n + 1, x => toBytesBE n (x / 256) ++ [x % 256]

def padMsg (msg : List Nat) : List Nat :=
  msg ++ [0x80] ++ List.replicate ((55 + 64 - msg.length % 64) % 64) 0 ++
    toBytesBE 8 (msg.length * 8)

def bytesToWords : List Nat → List Nat
  | a :: b :: c :: d :: rest => (((a * 256 + b) * 256 + c) * 256 + d) :: bytesToWords rest
  | _ => []

def chunksAux : Nat → List Nat → List (List Nat)
  | 0, _ => []
  | _, [] => []
  | fuel + 1, l => l.take 64 :: chunksAux fuel (l.drop 64)

def sha256Bytes (msg : List Nat) : List Nat :=
  let padded := padMsg msg
  let final := (chunksAux padded.length padded).foldl
    (fun h b => compressBlock h (bytesToWords b)) H0
  toBytesBE 4 final.a ++ toBytesBE 4 final.b ++ toBytesBE 4 final.c ++ toBytesBE 4 final.d ++
  toBytesBE 4 final.e ++ toBytesBE 4 final.f ++ toBytesBE 4 final.g ++ toBytesBE 4 final.h

def hexChars : List Char := ("0123456789abcdef").data

def byteToHex (b : Nat) : List Char := [hexChars.getD (b / 16) ('0'), hexChars.getD (b % 16) ('0')]

def utf8EncodeChar (c : Char) : List Nat :=
  let n := c.toNat
  if n < 0x80 then [n]
  else if n < 0x800 then [0xC0 ||| (n >>> 6), 0x80 ||| (n &&& 0x3F)]
  else if n < 0x10000 then
    [0xE0 ||| (n >>> 12), 0x80 ||| ((n >>> 6) &&& 0x3F), 0x80 ||| (n &&& 0x3F)]
  else
    [0xF0 ||| (n >>> 18), 0x80 ||| ((n >>> 12) &&& 0x3F), 0x80 ||| ((n >>> 6) &&& 0x3F),
     0x80 ||| (n &&& 0x3F)]

def utf8Encode (s : String) : List Nat := (s.data.map utf8EncodeChar).foldr (· ++ ·) []

/-- Python `hashlib.sha256(s.encode('utf-8')).hexdigest()`. -/
def sha256Hex (s : String) : String :=
  ⟨((sha256Bytes (utf8Encode s)).map byteToHex).foldr (· ++ ·) []⟩

end Sha256

namespace PyStr

/-- Python `str.strip()` (ASCII whitespace). -/
def trimStr (s : String) : String :=
  ⟨((s.data.dropWhile Char.isWhitespace).reverse.dropWhile Char.isWhitespace).reverse⟩

/-- Python `str.lower()` (ASCII letters; the pipeline's data is ASCII). -/
def lowerStr (s : String) : String := ⟨s.data.map Char.toLower⟩

/-- Python `s[:n]`. -/
def takeChars (n : Nat) (s : String) : String := ⟨s.data.take n⟩

/-- Python `str.rstrip('/')`: removes ALL trailing slash characters. -/
def rstripSlash (s : String) : String :=
  ⟨(s.data.reverse.dropWhile (fun c => c = '/')).reverse⟩

/-- Python `"|".join(parts)`. -/
def joinBar : List String → String
  | [] => ("")
  | [p] => p
  | p :: rest => p ++ ("|") ++ joinBar rest

end PyStr

/-- One network call of a paged fetch: `err` is a transport exception
(caught, backoff, retry), `ok rows b` is a page of rows where `b` records
whether the BigQuery load job issued for this page's new rows succeeds. -/
inductive FetchCall (α : Type) where
  | err : FetchCall α
  | ok : List α → Bool → FetchCall α
deriving DecidableEq

namespace Rev3

/-- Fields `stable_key` reads from its row dict (`row.get` may yield None). -/
structure KeyFields where
  Query : Option String
  Page : Option String
  Date : String

def normQuery (q : Option String) : String := PyStr.lowerStr (PyStr.trimStr (q.getD ("")))

def normPage (p : Option String) : String :=
  PyStr.rstripSlash (PyStr.lowerStr (PyStr.trimStr (p.getD (""))))

/-- `date_raw[:10]`; the dimension value from the API is always a string,
so only the `isinstance(date_raw, str)` branch of the source is reachable. -/
def normDate (d : String) : String := PyStr.takeChars 10 d

def canonTriple (r : KeyFields) : String × String × String :=
  (normQuery r.Query, normPage r.Page, normDate r.Date)

/-- `gsc_to_bq_rev3_full.py` lines 74-87. -/
def stable_key (r : KeyFields) : String :=
  Sha256.sha256Hex
    (PyStr.joinBar [(canonTriple r).1, (canonTriple r).2.1, (canonTriple r).2.2])

/-- One entry of a GSC response page (`r['keys']` = [date, query, page]). -/
structure SrcRow where
  date : String
  query : String
  page : String
  clicks : Int
  impressions : Int
  ctr : Int
  position : Int
deriving DecidableEq

/-- One row of the raw BigQuery table. -/
structure OutRow where
  Date : String
  Query : String
  Page : String
  Clicks : Int
  Impressions : Int
  CTR : Int
  Position : Int
  unique_key : String
deriving DecidableEq

def keyFields (r : SrcRow) : KeyFields := ⟨some r.query, some r.page, r.date⟩

def rowKey (r : SrcRow) : String := stable_key (keyFields r)

def mkOut (r : SrcRow) : OutRow :=
  ⟨r.date, r.query, r.page, r.clicks, r.impressions, r.ctr, r.position, rowKey r⟩

/-- Loop body lines 145-154: compute the key, skip if seen, else record the
key in the in-memory set and keep the row for this page's batch. -/
def processStep (acc : List String × List OutRow) (r : SrcRow) : List String × List OutRow :=
  if rowKey r ∈ acc.1 then acc else (rowKey r :: acc.1, acc.2 ++ [mkOut r])

def processPage (keys : List String) (rows : List SrcRow) : List String × List OutRow :=
  rows.foldl processStep (keys, [])

/-- Pipeline state: the cursor, the in-memory key set, the accumulated
`all_rows`, the sink table contents, and (ghost) the log of issued
requests' `startRow` values. -/
structure St where
  startRow : Nat
  keys : List String
  allRows : List OutRow
  sink : List OutRow
  requests : List Nat
deriving DecidableEq

def sinkKeys (sink : List OutRow) : List String := sink.map (fun r => r.unique_key)

def ROW_LIMIT : Nat := 25000

/-- The `while True` loop of `fetch_gsc_data` (lines 123-171) driven by a
trace of call outcomes.  An exception leaves `start_row` untouched and
retries; an empty page breaks; a nonempty page is filtered against the key
set, its surviving batch is appended to the sink when the load job succeeds
(`upload_to_bq` swallows failures, and `all_rows` is extended either way);
a short page breaks, a full page advances the cursor by the page length.
Returns the final state and whether the loop broke (`false` = the trace was
exhausted with the loop still running). -/
def reqLog (s : St) : St := { s with requests := s.requests ++ [s.startRow] }

/-- The per-page effect of one loop iteration (lines 144-166): the issued
request is logged, the page is filtered against the in-memory set, the
surviving batch extends `all_rows`, and the sink receives the batch when
the load job succeeds (`upload_to_bq` swallows a failure). -/
def pageStep (s : St) (rows : List SrcRow) (upOk : Bool) : St :=
  { s with
      keys := (processPage s.keys rows).1
      allRows := s.allRows ++ (processPage s.keys rows).2
      sink := if upOk then s.sink ++ (processPage s.keys rows).2 else s.sink
      requests := s.requests ++ [s.startRow] }

def advance (s : St) (n : Nat) : St := { s with startRow := s.startRow + n }

def runTrace (limit : Nat) : List (FetchCall SrcRow) → St → St × Bool
  | [], s => (s, false)
  | FetchCall.err :: cs, s => runTrace limit cs (reqLog s)
  | FetchCall.ok rows upOk :: cs, s =>
      if rows.isEmpty then (reqLog s, true)
      else if rows.length < limit then (pageStep s rows upOk, true)
      else runTrace limit cs (advance (pageStep s rows upOk) rows.length)

def initSt (sink0 : List OutRow) (keys0 : List String) : St := ⟨0, keys0, [], sink0, []⟩

/-- `get_existing_keys` (lines 90-98): the key query's result, or the empty
set when the query raised. -/
def get_existing_keys (q : Except Unit (List String)) : List String :=
  match q with
  | Except.ok ks => ks
  | Except.error _ => []

/-- `fetch_gsc_data`: seed the in-memory index from the sink-key query,
then run the paged loop. -/
def fetch_gsc_data (limit : Nat) (q : Except Unit (List String)) (sink0 : List OutRow)
    (trace : List (FetchCall SrcRow)) : St × Bool :=
  runTrace limit trace (initSt sink0 (get_existing_keys q))

end Rev3

namespace Rev1

/-- `gsc-to-bq.py` lines 68-74: `"|".join` of the raw field values with no
normalization.  Defined in the module but never called. -/
def stable_key (r : Rev3.KeyFields) : String :=
  Sha256.sha256Hex (PyStr.joinBar [r.Query.getD (""), r.Page.getD (""), r.Date])

inductive PyErr where
  | nameError
deriving DecidableEq

/-- No definition named `generate_key` exists anywhere in `gsc-to-bq.py`
(nor is one imported); the module-level name is unbound. -/
def generate_key : Option (String → String → String → String) := none

/-- Evaluating an identifier: an unbound name raises `NameError`. -/
def lookupName {α : Type} (o : Option α) : Except PyErr α :=
  match o with
  | none => Except.error PyErr.nameError
  | some v => Except.ok v

/-- The row loop of `fetch_gsc_data` (lines 130-142): each iteration
evaluates `generate_key(date, query_text, page)` before the duplicate
check; evaluating the unbound name raises, aborting the iteration with
no row keyed or appended. -/
def processRows : List Rev3.SrcRow → List String → List Rev3.OutRow →
    Except PyErr (List String × List Rev3.OutRow)
  | [], keys, acc => Except.ok (keys, acc)
  | r :: rs, keys, acc =>
      match lookupName generate_key with
      | Except.error e => Except.error e
      | Except.ok gk =>
          let key := gk r.date r.query r.page
          if key ∈ keys then processRows rs keys acc
          else processRows rs (key :: keys)
            (acc ++ [{ Date := r.date, Query := r.query, Page := r.page, Clicks := r.clicks,
                       Impressions := r.impressions, CTR := r.ctr, Position := r.position,
                       unique_key := key }])

inductive Rev1Call where
  | err : Rev1Call
  | ok : List Rev3.SrcRow → Rev1Call
deriving DecidableEq

structure St where
  startRow : Nat
  keys : List String
  allRows : List Rev3.OutRow
  sink : List Rev3.OutRow
  requests : List Nat
deriving DecidableEq

/-- The `while True` loop of `gsc-to-bq.py` `fetch_gsc_data` (lines
108-158).  Only the network call is inside a `try`; an exception from the
row loop propagates and kills the run (`Except.error` carries the state at
the crash).  The `Except.ok` continuation after `processRows` mirrors the
source but is unreachable because `generate_key` is unbound. -/
def runTrace (limit : Nat) : List Rev1Call → St → Except (PyErr × St) (St × Bool)
  | [], s => Except.ok (s, false)
  | Rev1Call.err :: cs, s => runTrace limit cs { s with requests := s.requests ++ [s.startRow] }
  | Rev1Call.ok rows :: cs, s =>
      let s1 : St := { s with requests := s.requests ++ [s.startRow] }
      if rows.isEmpty then Except.ok (s1, true)
      else
        match processRows rows s1.keys [] with
        | Except.error e => Except.error (e, s1)
        | Except.ok kb =>
            let s2 : St :=
              { s1 with keys := kb.1, allRows := s1.allRows ++ kb.2, sink := s1.sink ++ kb.2 }
            if rows.length < limit then Except.ok (s2, true)
            else runTrace limit cs { s2 with startRow := s2.startRow + rows.length }

end Rev1

namespace WebFF

def ROW_LIMIT : Nat := 25000

/-- One row of the expanded-dimension raw table
(`gsc_to_bq_searchtype_web_fullfetch.py`).  `Clicks` is an `Option` so the
`row.get("Clicks") is None` test of line 581 is expressible; every row the
script constructs sets it. -/
structure WebRow where
  Date : String
  Query : String
  Page : String
  Country : String
  Device : String
  SearchAppearance : String
  Clicks : Option Int
  Impressions : Option Int
  CTR : Option Int
  Position : Option Int
  SearchType : String
  unique_key : String
deriving DecidableEq

/-- The canonical lowercase-dimension-to-column lookup of
`generate_expanded_unique_key` (lines 117-136); rows built by this script
always carry the five canonical columns, so the fallback lookups for
unknown dimension names find nothing. -/
def getDim (r : WebRow) (dim : String) : Option String :=
  if dim = ("date") then some r.Date
  else if dim = ("query") then some r.Query
  else if dim = ("page") then some r.Page
  else if dim = ("country") then some r.Country
  else if dim = ("device") then some r.Device
  else none

/-- Per-dimension normalization (lines 138-154): None to empty string;
dates cut to 10 characters; other values stripped and lowercased, and a
nonempty page value loses all trailing slashes. -/
def normDimVal (dim : String) (val : Option String) : String :=
  let v := val.getD ("")
  if dim = ("date") then PyStr.takeChars 10 v
  else
    let v2 := PyStr.lowerStr (PyStr.trimStr v)
    if dim = ("page") ∧ v2 ≠ ("") then PyStr.rstripSlash v2 else v2

/-- `generate_expanded_unique_key(row, dims)` (lines 100-159); `dims` is
already lowercased by every caller. -/
def generate_expanded_unique_key (r : WebRow) (dims : List String) : String :=
  Sha256.sha256Hex (PyStr.joinBar (dims.map (fun d => normDimVal d (getDim r d))))

/-- `upload_to_bq` (lines 180-212): empty frame returns 0; otherwise the
frame is loaded as-is with `WRITE_APPEND` (no key re-query, no duplicate
filtering) and its full length reported; a failed load job is logged and
reported as 0.  Debug mode (which skips the insert) is not modelled. -/
def upload_to_bq (df : List WebRow) (sink : List WebRow) (jobOk : Bool) : List WebRow × Nat :=
  if df.isEmpty then (sink, 0)
  else if jobOk then (sink ++ df, df.length) else (sink, 0)

/-- The sitewide row template of `fetch_sitewide_batch` step 1 (lines
506-525), keyed over dims `["date"]`. -/
def mkSiteRow (date : String) (clicks impressions ctr position : Int) : WebRow :=
  let base : WebRow :=
    { Date := date, Query := ("__SITE_TOTAL__"), Page := ("__SITE_TOTAL__"),
      Country := ("__NO_COUNTRY__"), Device := ("__NO_DEVICE__"),
      SearchAppearance := ("__NO_APPEARANCE__"), Clicks := some clicks,
      Impressions := some impressions, CTR := some ctr, Position := some position,
      SearchType := ("web"), unique_key := ("") }
  { base with unique_key := generate_expanded_unique_key base [("date")] }

/-- The placeholder row synthesized for a missing date (lines 555-570). -/
def mkPlaceholderRow (date : String) : WebRow :=
  let base : WebRow :=
    { Date := date, Query := ("__SITE_TOTAL__"), Page := ("__SITE_TOTAL__"),
      Country := ("__NO_COUNTRY__"), Device := ("__NO_DEVICE__"),
      SearchAppearance := ("__NO_APPEARANCE__"), Clicks := some 0,
      Impressions := some 0, CTR := some 0, Position := some 0,
      SearchType := ("web"), unique_key := ("") }
  { base with unique_key := generate_expanded_unique_key base [("date")] }

/-- An API row for the `['date']` dimension batch. -/
structure DateApiRow where
  date : String
  clicks : Int
  impressions : Int
  ctr : Int
  position : Int
deriving DecidableEq

structure SiteSt where
  startRow : Nat
  allNewRows : List WebRow
  keys : List String
  sink : List WebRow
  totalNew : Nat
deriving DecidableEq

/-- Step 1 of `fetch_sitewide_batch` (lines 484-546): paged fetch of the
`['date']` dimension; a row whose key is in the scoped BigQuery key set
`bqKeys` is skipped (upsert not implemented), a row whose key is in the
shared in-memory set is skipped, the rest are batched, uploaded and added
to `all_new_rows`. -/
def sitewideStep1 (limit : Nat) (bqKeys : List String) :
    List (FetchCall DateApiRow) → SiteSt → SiteSt × Bool
  | [], s => (s, false)
  | FetchCall.err :: cs, s => sitewideStep1 limit bqKeys cs s
  | FetchCall.ok rows upOk :: cs, s =>
      if rows.isEmpty then (s, true)
      else
        let kb := rows.foldl
          (fun acc r =>
            let row := mkSiteRow r.date r.clicks r.impressions r.ctr r.position
            if row.unique_key ∈ bqKeys then acc
            else if row.unique_key ∈ acc.1 then acc
            else (row.unique_key :: acc.1, acc.2 ++ [row]))
          (s.keys, [])
        let inserted := if upOk then kb.2.length else 0
        let newSink := if upOk then s.sink ++ kb.2 else s.sink
        let s2 : SiteSt :=
          { s with keys := kb.1, allNewRows := s.allNewRows ++ kb.2, sink := newSink,
                   totalNew := s.totalNew + inserted }
        if rows.length < limit then (s2, true)
        else sitewideStep1 limit bqKeys cs { s2 with startRow := s2.startRow + rows.length }

/-- Step 2 of `fetch_sitewide_batch` (lines 548-586): the first loop
synthesizes a placeholder for every date of the range with no real
`__SITE_TOTAL__` row, recording its key in the shared in-memory set — but
line 581 then REBINDS `placeholders_only` to the rows of `all_new_rows`
whose `Clicks` is None (there are none), so the synthesized placeholders
are discarded and the upload receives the rebound list. -/
def sitewideStep2 (dateRange : List String) (bqKeys : List String) (s : SiteSt) : SiteSt :=
  let pk := dateRange.foldl
    (fun acc d =>
      if s.allNewRows.any (fun row => row.Date = d ∧ row.Query = ("__SITE_TOTAL__")) then acc
      else
        let ph := mkPlaceholderRow d
        if ph.unique_key ∉ bqKeys ∧ ph.unique_key ∉ acc.1
        then (ph.unique_key :: acc.1, acc.2 ++ [ph]) else acc)
    (s.keys, [])
  let placeholders_only := s.allNewRows.filter (fun row => row.Clicks.isNone)
  if placeholders_only.isEmpty then { s with keys := pk.1 }
  else
    { s with keys := pk.1, sink := s.sink ++ placeholders_only,
             totalNew := s.totalNew + placeholders_only.length,
             allNewRows := s.allNewRows ++ placeholders_only }

/-- `fetch_sitewide_batch` (lines 448-592): step 0's scoped key query is
passed in as `bqKeys`, `dateRange` is the inclusive day list that
`pd.date_range(start, end)` produces. -/
def fetch_sitewide_batch (limit : Nat) (bqKeys : List String) (keys0 : List String)
    (sink0 : List WebRow) (trace : List (FetchCall DateApiRow)) (dateRange : List String) :
    SiteSt × Bool :=
  let r1 := sitewideStep1 limit bqKeys trace ⟨0, [], keys0, sink0, 0⟩
  (sitewideStep2 dateRange bqKeys r1.1, r1.2)

end WebFF

namespace SA

/-- One row of the raw SearchAppearance table
(`gsc_to_bq_searchappearance_fullfetch.py`).  Metric fields are `Option`
so `pd.to_numeric(..., errors='coerce').fillna(0)` (missing or
non-numeric becomes 0) is expressible. -/
structure SARow where
  Date : String
  SearchAppearance : String
  Clicks : Option Int
  Impressions : Option Int
  CTR : Option Int
  Position : Option Int
  fetch_date : String
  fetch_id : String
  unique_key : String
deriving DecidableEq

/-- `stable_key` (lines 75-83): SHA-256 of `"searchappearance|date"`. -/
def stable_key (sa : Option String) (date : Option String) (fetch_date : Option String) : String :=
  Sha256.sha256Hex
    (PyStr.lowerStr (PyStr.trimStr (sa.getD (""))) ++ ("|") ++
     PyStr.trimStr ((date.getD (fetch_date.getD ("")))))

/-- `get_existing_keys` (lines 127-145): the key query's result, or the
empty set when the query raised. -/
def get_existing_keys (q : Except Unit (List String)) : List String :=
  match q with
  | Except.ok ks => ks
  | Except.error _ => []

structure Report where
  offered : Nat
  written : Nat
  skipped : Nat
deriving DecidableEq

/-- The per-column numeric coercion of `upload_to_bq` (lines 292-301). -/
def coerceNumeric (r : SARow) : SARow :=
  { r with Clicks := some (r.Clicks.getD 0), Impressions := some (r.Impressions.getD 0),
           CTR := some (r.CTR.getD 0), Position := some (r.Position.getD 0) }

def sinkKeysSA (sink : List SARow) : List String := sink.map (fun r => r.unique_key)

/-- `upload_to_bq(df, table_name)` (lines 283-342): empty frame returns at
once; metrics are coerced; the target table's current `unique_key` set is
re-queried (`queryOk = false` models the query raising, degrading to the
empty set); candidates whose key is present are dropped; the counts of
rows offered, written and skipped as duplicates are reported; the
remainder, if any, is loaded with `WRITE_APPEND` (`jobOk = false` models
the load job raising, which is logged and leaves the table unchanged).
Debug mode (CSV instead of insert) is not modelled; every frame this
pipeline builds carries a `unique_key` column, so the missing-column
branch is unreachable. -/
def upload_to_bq (df : List SARow) (sink : List SARow) (queryOk : Bool) (jobOk : Bool) :
    Report × List SARow :=
  if df.isEmpty then (⟨0, 0, 0⟩, sink)
  else
    let dfc := df.map coerceNumeric
    let existing := if queryOk then sinkKeysSA sink else []
    let dfFiltered := dfc.filter (fun r => decide (r.unique_key ∉ existing))
    let rep : Report := ⟨df.length, dfFiltered.length, df.length - dfFiltered.length⟩
    if dfFiltered.isEmpty then (rep, sink)
    else if jobOk then (rep, sink ++ dfFiltered) else (rep, sink)

end SA

namespace Sha256

theorem toBytesBE_length (n : Nat) : ∀ x : Nat, (toBytesBE n x).length = n := by
  induction n with
  | zero => intro x; rfl
  | succ n ih => intro x; simp [toBytesBE, ih]

theorem toBytesBE_lt (n : Nat) : ∀ (x : Nat), ∀ b ∈ toBytesBE n x, b < 256 := by
  induction n with
  | zero => intro x b hb; simp [toBytesBE] at hb
  | succ n ih =>
      intro x b hb
      simp only [toBytesBE, List.mem_append, List.mem_singleton] at hb
      rcases hb with hb | hb
      · exact ih _ b hb
      · subst hb; exact Nat.mod_lt _ (by norm_num)

theorem sha256Bytes_length (m : List Nat) : (sha256Bytes m).length = 32 := by
  simp [sha256Bytes, toBytesBE_length]

theorem sha256Bytes_lt (m : List Nat) : ∀ b ∈ sha256Bytes m, b < 256 := by
  intro b hb
  simp only [sha256Bytes, List.mem_append] at hb
  rcases hb with ((((((hb | hb) | hb) | hb) | hb) | hb) | hb) | hb <;>
    exact toBytesBE_lt _ _ b hb

theorem getD_hexChars_mem : ∀ i : Nat, i < 16 → hexChars.getD i ('0') ∈ hexChars := by decide

theorem byteToHex_mem (b : Nat) (hb : b < 256) : ∀ c ∈ byteToHex b, c ∈ hexChars := by
  intro c hc
  simp only [byteToHex, List.mem_cons, List.mem_singleton, List.not_mem_nil, or_false] at hc
  rcases hc with rfl | rfl
  · exact getD_hexChars_mem _ (by omega)
  · exact getD_hexChars_mem _ (by omega)

theorem hexFlat_length (l : List Nat) :
    ((l.map byteToHex).foldr (· ++ ·) []).length = 2 * l.length := by
  induction l with
  | nil => rfl
  | cons b bs ih =>
      simp only [List.map_cons, List.foldr_cons, List.length_append, ih, byteToHex,
        List.length_cons, List.length_nil]
      omega

theorem hexFlat_mem (l : List Nat) (c : Char)
    (hc : c ∈ (l.map byteToHex).foldr (· ++ ·) []) : ∃ b ∈ l, c ∈ byteToHex b := by
  induction l with
  | nil => simp at hc
  | cons b bs ih =>
      simp only [List.map_cons, List.foldr_cons, List.mem_append] at hc
      rcases hc with hc | hc
      · exact ⟨b, List.mem_cons_self _ _, hc⟩
      · obtain ⟨b2, hb2, hcb⟩ := ih hc
        exact ⟨b2, List.mem_cons_of_mem _ hb2, hcb⟩

theorem sha256Hex_length (s : String) : (sha256Hex s).length = 64 := by
  show (((sha256Bytes (utf8Encode s)).map byteToHex).foldr (· ++ ·) []).length = 64
  rw [hexFlat_length, sha256Bytes_length]

theorem sha256Hex_chars (s : String) : ∀ c ∈ (sha256Hex s).data, c ∈ hexChars := by
  intro c hc
  obtain ⟨b, hb, hcb⟩ := hexFlat_mem _ c hc
  exact byteToHex_mem b (sha256Bytes_lt _ b hb) c hcb

end Sha256

namespace PyStr

theorem dropWhile_head_not {α : Type} (p : α → Bool) :
    ∀ (l : List α) (a : α), (l.dropWhile p).head? = some a → p a = false := by
  intro l
  induction l with
  | nil => intro a h; simp [List.dropWhile] at h
  | cons x xs ih =>
      intro a h
      by_cases hx : p x
      · rw [List.dropWhile_cons_of_pos hx] at h
        exact ih a h
      · rw [List.dropWhile_cons_of_neg hx] at h
        simp only [List.head?_cons, Option.some.injEq] at h
        subst h
        exact Bool.of_not_eq_true hx

theorem rstripSlash_spec (s : String) :
    s.data = (rstripSlash s).data ++ List.replicate
        ((s.data.reverse.takeWhile (fun c => c = '/')).length) ('/')
    ∧ (rstripSlash s).data.getLast? ≠ some ('/') := by
  constructor
  · conv_lhs => rw [← s.data.reverse_reverse]
    conv_lhs =>
      rw [← List.takeWhile_append_dropWhile (p := fun c => c = '/') (l := s.data.reverse)]
    rw [List.reverse_append]
    show _ = (s.data.reverse.dropWhile (fun c => c = '/')).reverse ++ _
    congr 1
    have hall : ∀ b ∈ s.data.reverse.takeWhile (fun c => c = '/'), b = '/' := by
      intro b hb
      have := List.mem_takeWhile_imp hb
      exact of_decide_eq_true this
    calc (s.data.reverse.takeWhile (fun c => c = '/')).reverse
        = (List.replicate ((s.data.reverse.takeWhile (fun c => c = '/')).length) ('/')).reverse := by
          rw [← List.eq_replicate_length.mpr hall]
      _ = List.replicate ((s.data.reverse.takeWhile (fun c => c = '/')).length) ('/') :=
          List.reverse_replicate _ _
  · show ((s.data.reverse.dropWhile (fun c => c = '/')).reverse).getLast? ≠ some ('/')
    rw [List.getLast?_reverse]
    intro h
    have := dropWhile_head_not (fun c => c = '/') _ _ h
    simp at this

end PyStr

/-- Claim C4: `stable_key` is deterministic — it is a pure function of the
canonicalized Query/Page/Date triple, every digest is a 64-character string
of lowercase hex characters, and the two example rows (one with trailing
whitespace, capitals and a trailing page slash, the other already
canonical) hash identically. -/
theorem C4_stable_key_deterministic :
    (∀ r1 r2 : Rev3.KeyFields, Rev3.canonTriple r1 = Rev3.canonTriple r2 →
       Rev3.stable_key r1 = Rev3.stable_key r2)
    ∧ (∀ r : Rev3.KeyFields, (Rev3.stable_key r).length = 64)
    ∧ (∀ r : Rev3.KeyFields, ∀ c ∈ (Rev3.stable_key r).data, c ∈ Sha256.hexChars)
    ∧ Rev3.stable_key ⟨some ("Buy Shoes "), some ("https://x.com/a/"), ("2025-09-26")⟩
        = Rev3.stable_key ⟨some ("buy shoes"), some ("https://x.com/a"), ("2025-09-26")⟩ := by
  refine ⟨?_, ?_, ?_, ?_⟩
  · intro r1 r2 h
    simp [Rev3.stable_key, h]
  · intro r
    exact Sha256.sha256Hex_length _
  · intro r
    exact Sha256.sha256Hex_chars _
  · have h : Rev3.canonTriple ⟨some ("Buy Shoes "), some ("https://x.com/a/"), ("2025-09-26")⟩
        = Rev3.canonTriple ⟨some ("buy shoes"), some ("https://x.com/a"), ("2025-09-26")⟩ := by
      decide
    simp [Rev3.stable_key, h]

/-- Claim C4 witness: the determinism implication applied to a concrete
pair of rows whose canonical triples agree. -/
theorem C4_witness :
    Rev3.stable_key ⟨some (" SHOES "), some ("https://y.org/b///"), ("2025-01-02T00:00:00")⟩
      = Rev3.stable_key ⟨some ("shoes"), some ("https://y.org/b"), ("2025-01-02")⟩ :=
  C4_stable_key_deterministic.1 _ _ (by decide)

/-- Claim C5 counterexample: the claim says normalization removes exactly
one trailing slash, so `"https://x.com/a//"` would keep one; the code's
`rstrip('/')` removes both. -/
theorem C5_counterexample :
    Rev3.normPage (some ("https://x.com/a//")) = ("https://x.com/a")
    ∧ Rev3.normPage (some ("https://x.com/a//")) ≠ ("https://x.com/a/") := by
  exact ⟨by decide, by decide⟩

/-- Claim C5 (amended): the page normalization removes ALL trailing slash
characters — the result never ends in a slash and the input is the result
followed by some run of slashes — leaving all other characters
unchanged. -/
theorem C5_strips_all_trailing_slashes :
    (∀ s : String, ∃ n : Nat,
       s.data = (PyStr.rstripSlash s).data ++ List.replicate n ('/')
       ∧ (PyStr.rstripSlash s).data.getLast? ≠ some ('/'))
    ∧ (∀ p : Option String,
       Rev3.normPage p = PyStr.rstripSlash (PyStr.lowerStr (PyStr.trimStr (p.getD ("")))))
    := by
  refine ⟨?_, fun p => rfl⟩
  intro s
  exact ⟨_, (PyStr.rstripSlash_spec s).1, (PyStr.rstripSlash_spec s).2⟩

namespace Rev3

/-- Combined invariants of the page-filtering fold: the key set only
grows, every processed row's key ends up in it, every key of the result
set was either present before or belongs to the batch, the batch's keys
are distinct, the batch extends the accumulator with rows whose keys were
fresh, and every batch row's key is in the result set. -/
theorem processAux (rows : List SrcRow) :
    ∀ (keys : List String) (batch : List OutRow),
      ((batch.map (fun r => r.unique_key)).Nodup) →
      (∀ x ∈ batch, x.unique_key ∈ keys) →
      ((∀ k ∈ keys, k ∈ (rows.foldl processStep (keys, batch)).1)
       ∧ (∀ r ∈ rows, rowKey r ∈ (rows.foldl processStep (keys, batch)).1)
       ∧ (∀ k ∈ (rows.foldl processStep (keys, batch)).1,
            k ∈ keys ∨ k ∈ (rows.foldl processStep (keys, batch)).2.map (fun r => r.unique_key))
       ∧ (((rows.foldl processStep (keys, batch)).2.map (fun r => r.unique_key)).Nodup)
       ∧ (∃ rest, (rows.foldl processStep (keys, batch)).2 = batch ++ rest
            ∧ ∀ x ∈ rest, x.unique_key ∉ keys)
       ∧ (∀ x ∈ (rows.foldl processStep (keys, batch)).2,
            x.unique_key ∈ (rows.foldl processStep (keys, batch)).1)) := by
  induction rows with
  | nil =>
      intro keys batch h1 h2
      exact ⟨fun k hk => hk, by simp, fun k hk => Or.inl hk, h1, ⟨[], by simp⟩, h2⟩
  | cons r rs ih =>
      intro keys batch h1 h2
      simp only [List.foldl_cons]
      by_cases hm : rowKey r ∈ keys
      · have hstep : processStep (keys, batch) r = (keys, batch) := by
          simp [processStep, hm]
        rw [hstep]
        obtain ⟨g1, g2, g3, g4, g5, g6⟩ := ih keys batch h1 h2
        refine ⟨g1, ?_, g3, g4, g5, g6⟩
        intro r2 hr2
        rcases List.mem_cons.mp hr2 with rfl | hr2
        · exact g1 _ hm
        · exact g2 _ hr2
      · have hstep : processStep (keys, batch) r = (rowKey r :: keys, batch ++ [mkOut r]) := by
          simp [processStep, hm]
        rw [hstep]
        have hbk : (mkOut r).unique_key = rowKey r := rfl
        have h1' : (((batch ++ [mkOut r]).map (fun x => x.unique_key)).Nodup) := by
          rw [List.map_append]
          refine List.Nodup.append h1 (by simp) ?_
          intro k hk1 hk2
          simp only [List.map_cons, List.map_nil, List.mem_singleton, hbk] at hk2
          subst hk2
          obtain ⟨x, hx, hxe⟩ := List.mem_map.mp hk1
          exact hm (hxe ▸ h2 x hx)
        have h2' : ∀ x ∈ batch ++ [mkOut r], x.unique_key ∈ rowKey r :: keys := by
          intro x hx
          rcases List.mem_append.mp hx with hx | hx
          · exact List.mem_cons_of_mem _ (h2 x hx)
          · simp only [List.mem_singleton] at hx
            subst hx
            exact List.mem_cons_self _ _
        obtain ⟨g1, g2, g3, g4, g5, g6⟩ := ih (rowKey r :: keys) (batch ++ [mkOut r]) h1' h2'
        obtain ⟨rest, hrest, hfresh⟩ := g5
        refine ⟨?_, ?_, ?_, g4, ?_, g6⟩
        · intro k hk
          exact g1 k (List.mem_cons_of_mem _ hk)
        · intro r2 hr2
          rcases List.mem_cons.mp hr2 with rfl | hr2
          · exact g1 _ (List.mem_cons_self _ _)
          · exact g2 _ hr2
        · intro k hk
          rcases g3 k hk with hk2 | hk2
          · rcases List.mem_cons.mp hk2 with rfl | hk2
            · right
              have hmem : mkOut r ∈ (rs.foldl processStep (rowKey r :: keys, batch ++ [mkOut r])).2 := by
                rw [hrest]
                exact List.mem_append.mpr (Or.inl (List.mem_append.mpr (Or.inr (by simp))))
              exact List.mem_map.mpr ⟨mkOut r, hmem, hbk⟩
            · exact Or.inl hk2
          · exact Or.inr hk2
        · refine ⟨mkOut r :: rest, ?_, ?_⟩
          · rw [hrest, List.append_assoc]
            rfl
          · intro x hx
            rcases List.mem_cons.mp hx with rfl | hx
            · rw [hbk]; exact hm
            · intro hxk
              exact hfresh x hx (List.mem_cons_of_mem _ hxk)

theorem processPage_keys_mono (keys : List String) (rows : List SrcRow) :
    ∀ k ∈ keys, k ∈ (processPage keys rows).1 :=
  (processAux rows keys [] (by simp) (by simp)).1

theorem processPage_mem_keys (keys : List String) (rows : List SrcRow) :
    ∀ r ∈ rows, rowKey r ∈ (processPage keys rows).1 :=
  (processAux rows keys [] (by simp) (by simp)).2.1

theorem processPage_keys_src (keys : List String) (rows : List SrcRow) :
    ∀ k ∈ (processPage keys rows).1,
      k ∈ keys ∨ k ∈ (processPage keys rows).2.map (fun r => r.unique_key) :=
  (processAux rows keys [] (by simp) (by simp)).2.2.1

theorem processPage_batch_nodup (keys : List String) (rows : List SrcRow) :
    ((processPage keys rows).2.map (fun r => r.unique_key)).Nodup :=
  (processAux rows keys [] (by simp) (by simp)).2.2.2.1

theorem processPage_batch_fresh (keys : List String) (rows : List SrcRow) :
    ∀ x ∈ (processPage keys rows).2, x.unique_key ∉ keys := by
  obtain ⟨rest, hrest, hfresh⟩ := (processAux rows keys [] (by simp) (by simp)).2.2.2.2.1
  intro x hx
  rw [show (processPage keys rows).2 = rest by simpa using hrest] at hx
  exact hfresh x hx

theorem processPage_batch_keys_in (keys : List String) (rows : List SrcRow) :
    ∀ x ∈ (processPage keys rows).2, x.unique_key ∈ (processPage keys rows).1 :=
  (processAux rows keys [] (by simp) (by simp)).2.2.2.2.2

theorem processPage_all_dup_aux (rows : List SrcRow) :
    ∀ (keys : List String) (batch : List OutRow), (∀ r ∈ rows, rowKey r ∈ keys) →
      rows.foldl processStep (keys, batch) = (keys, batch) := by
  induction rows with
  | nil => intro keys batch _; rfl
  | cons r rs ih =>
      intro keys batch h
      simp only [List.foldl_cons]
      have hstep : processStep (keys, batch) r = (keys, batch) := by
        simp [processStep, h r (List.mem_cons_self _ _)]
      rw [hstep]
      exact ih keys batch (fun r2 hr2 => h r2 (List.mem_cons_of_mem _ hr2))

/-- A page whose every row's key is already indexed is filtered away
entirely: the key set and the batch are unchanged. -/
theorem processPage_all_dup (keys : List String) (rows : List SrcRow)
    (h : ∀ r ∈ rows, rowKey r ∈ keys) : processPage keys rows = (keys, []) :=
  processPage_all_dup_aux rows keys [] h

end Rev3

namespace Rev3

theorem runTrace_keys_mono (limit : Nat) :
    ∀ (trace : List (FetchCall SrcRow)) (s : St) (k : String),
      k ∈ s.keys → k ∈ (runTrace limit trace s).1.keys := by
  intro trace
  induction trace with
  | nil => intro s k hk; exact hk
  | cons c cs ih =>
      intro s k hk
      cases c with
      | err => exact ih _ k hk
      | ok rows upOk =>
          simp only [runTrace]
          by_cases he : rows.isEmpty
          · rw [if_pos he]
            exact hk
          · rw [if_neg he]
            by_cases hl : rows.length < limit
            · rw [if_pos hl]
              exact processPage_keys_mono _ _ k hk
            · rw [if_neg hl]
              exact ih _ k (processPage_keys_mono _ _ k hk)

end Rev3

namespace Rev3

/-- The sink's stored keys are duplicate-free and all indexed in memory. -/
def SinkInv (s : St) : Prop :=
  (sinkKeys s.sink).Nodup ∧ ∀ k ∈ sinkKeys s.sink, k ∈ s.keys

/-- All load jobs in the trace succeed. -/
def uploadsOk (trace : List (FetchCall SrcRow)) : Prop :=
  ∀ (rows : List SrcRow) (b : Bool), FetchCall.ok rows b ∈ trace → b = true

/-- Every indexed key is stored in the sink. -/
def KeysCovered (s : St) : Prop := ∀ k ∈ s.keys, k ∈ sinkKeys s.sink

theorem sinkKeys_append (a b : List OutRow) : sinkKeys (a ++ b) = sinkKeys a ++ sinkKeys b :=
  List.map_append _ _ _

theorem pageStep_sinkInv (s : St) (rows : List SrcRow) (b : Bool) (h : SinkInv s) :
    SinkInv (pageStep s rows b) := by
  constructor
  · cases b with
    | false => exact h.1
    | true =>
        show (sinkKeys (s.sink ++ (processPage s.keys rows).2)).Nodup
        rw [sinkKeys_append]
        refine List.Nodup.append h.1 (processPage_batch_nodup _ _) ?_
        intro k hk1 hk2
        obtain ⟨x, hx, hxe⟩ := List.mem_map.mp hk2
        exact processPage_batch_fresh _ _ x hx (hxe ▸ h.2 k hk1)
  · intro k hk
    cases b with
    | false => exact processPage_keys_mono _ _ k (h.2 k hk)
    | true =>
        have hk2 : k ∈ sinkKeys (s.sink ++ (processPage s.keys rows).2) := hk
        rw [sinkKeys_append] at hk2
        rcases List.mem_append.mp hk2 with hk3 | hk3
        · exact processPage_keys_mono _ _ k (h.2 k hk3)
        · obtain ⟨x, hx, hxe⟩ := List.mem_map.mp hk3
          exact hxe ▸ processPage_batch_keys_in _ _ x hx

theorem runTrace_sinkInv (limit : Nat) :
    ∀ (trace : List (FetchCall SrcRow)) (s : St),
      SinkInv s → SinkInv (runTrace limit trace s).1 := by
  intro trace
  induction trace with
  | nil => intro s h; exact h
  | cons c cs ih =>
      intro s h
      cases c with
      | err => exact ih _ h
      | ok rows upOk =>
          simp only [runTrace]
          by_cases he : rows.isEmpty
          · rw [if_pos he]
            exact h
          · rw [if_neg he]
            by_cases hl : rows.length < limit
            · rw [if_pos hl]
              exact pageStep_sinkInv _ _ _ h
            · rw [if_neg hl]
              exact ih _ (pageStep_sinkInv _ _ _ h)

theorem pageStep_keysCovered (s : St) (rows : List SrcRow) (h : KeysCovered s) :
    KeysCovered (pageStep s rows true) := by
  intro k hk
  show k ∈ sinkKeys (s.sink ++ (processPage s.keys rows).2)
  rw [sinkKeys_append]
  rcases processPage_keys_src s.keys rows k hk with hk2 | hk2
  · exact List.mem_append.mpr (Or.inl (h k hk2))
  · exact List.mem_append.mpr (Or.inr hk2)

theorem runTrace_keysCovered (limit : Nat) :
    ∀ (trace : List (FetchCall SrcRow)) (s : St), uploadsOk trace → KeysCovered s →
      KeysCovered (runTrace limit trace s).1 := by
  intro trace
  induction trace with
  | nil => intro s _ h; exact h
  | cons c cs ih =>
      intro s hup h
      have hupTail : uploadsOk cs := fun rows b hb => hup rows b (List.mem_cons_of_mem _ hb)
      cases c with
      | err => exact ih _ hupTail h
      | ok rows upOk =>
          have hb : upOk = true := hup rows upOk (List.mem_cons_self _ _)
          subst hb
          simp only [runTrace]
          by_cases he : rows.isEmpty
          · rw [if_pos he]
            exact h
          · rw [if_neg he]
            by_cases hl : rows.length < limit
            · rw [if_pos hl]
              exact pageStep_keysCovered _ _ h
            · rw [if_neg hl]
              exact ih _ hupTail (pageStep_keysCovered _ _ h)

end Rev3

namespace Rev3

/-- When every key the first run ever indexes is already present in a
second state's index, the run from that second state filters every row as
a duplicate: its index, `all_rows` and sink never change, and its control
flow (pages requested, loop exit) matches the first run's. -/
theorem runTrace_rerun (limit : Nat) :
    ∀ (trace : List (FetchCall SrcRow)) (s t : St),
      (∀ k ∈ (runTrace limit trace s).1.keys, k ∈ t.keys) →
      ((runTrace limit trace t).1.keys = t.keys
       ∧ (runTrace limit trace t).1.allRows = t.allRows
       ∧ (runTrace limit trace t).1.sink = t.sink
       ∧ (runTrace limit trace t).2 = (runTrace limit trace s).2) := by
  intro trace
  induction trace with
  | nil => intro s t h; exact ⟨rfl, rfl, rfl, rfl⟩
  | cons c cs ih =>
      intro s t h
      cases c with
      | err => exact ih (reqLog s) (reqLog t) h
      | ok rows upOk =>
          simp only [runTrace] at h ⊢
          by_cases he : rows.isEmpty
          · simp only [if_pos he] at h ⊢
            exact ⟨rfl, rfl, rfl, trivial⟩
          · simp only [if_neg he] at h ⊢
            by_cases hl : rows.length < limit
            · simp only [if_pos hl] at h ⊢
              have hrows : ∀ r ∈ rows, rowKey r ∈ t.keys := by
                intro r hr
                exact h _ (processPage_mem_keys s.keys rows r hr)
              have hpp : processPage t.keys rows = (t.keys, []) :=
                processPage_all_dup _ _ hrows
              refine ⟨?_, ?_, ?_, trivial⟩
              · show (processPage t.keys rows).1 = t.keys
                rw [hpp]
              · show t.allRows ++ (processPage t.keys rows).2 = t.allRows
                rw [hpp]
                simp
              · show (if upOk then t.sink ++ (processPage t.keys rows).2 else t.sink) = t.sink
                cases upOk <;> simp [hpp]
            · simp only [if_neg hl] at h ⊢
              have hrows : ∀ r ∈ rows, rowKey r ∈ t.keys := by
                intro r hr
                apply h
                exact runTrace_keys_mono limit cs _ _
                  (processPage_mem_keys s.keys rows r hr)
              have hpp : processPage t.keys rows = (t.keys, []) :=
                processPage_all_dup _ _ hrows
              have ht : advance (pageStep t rows upOk) rows.length
                  = { t with startRow := t.startRow + rows.length,
                             requests := t.requests ++ [t.startRow] } := by
                cases upOk <;> simp [advance, pageStep, hpp]
              obtain ⟨g1, g2, g3, g4⟩ :=
                ih (advance (pageStep s rows upOk) rows.length)
                   { t with startRow := t.startRow + rows.length,
                            requests := t.requests ++ [t.startRow] }
                   (fun k hk => h k hk)
              rw [ht]
              exact ⟨g1, g2, g3, g4⟩

end Rev3

namespace Rev3

/-- A full extraction run whose initial key load succeeds: the in-memory
index is seeded with exactly the keys stored in the sink. -/
def fullRun (limit : Nat) (sink0 : List OutRow) (trace : List (FetchCall SrcRow)) : St × Bool :=
  fetch_gsc_data limit (Except.ok (sinkKeys sink0)) sink0 trace

end Rev3

/-- Claim C1: for a fixed sink state (duplicate-free) and a fixed source
response sequence whose load jobs succeed, running the full extraction a
second time against the sink state left by the first run selects zero rows
as new and appends nothing; and after any prefix of either run the sink
never holds two stored rows with the same `unique_key`. -/
theorem C1_rerun_is_noop
    (limit : Nat) (sink0 : List Rev3.OutRow) (trace : List (FetchCall Rev3.SrcRow))
    (hnodup : (Rev3.sinkKeys sink0).Nodup)
    (hup : Rev3.uploadsOk trace) :
    (Rev3.fullRun limit (Rev3.fullRun limit sink0 trace).1.sink trace).1.allRows = []
    ∧ (Rev3.fullRun limit (Rev3.fullRun limit sink0 trace).1.sink trace).1.sink
        = (Rev3.fullRun limit sink0 trace).1.sink
    ∧ (∀ n : Nat, (Rev3.sinkKeys
        (Rev3.runTrace limit (trace.take n)
          (Rev3.initSt sink0 (Rev3.sinkKeys sink0))).1.sink).Nodup)
    ∧ (∀ n : Nat, (Rev3.sinkKeys
        (Rev3.runTrace limit (trace.take n)
          (Rev3.initSt (Rev3.fullRun limit sink0 trace).1.sink
            (Rev3.sinkKeys (Rev3.fullRun limit sink0 trace).1.sink))).1.sink).Nodup) := by
  have hinv0 : Rev3.SinkInv (Rev3.initSt sink0 (Rev3.sinkKeys sink0)) :=
    ⟨hnodup, fun k hk => hk⟩
  have hcov0 : Rev3.KeysCovered (Rev3.initSt sink0 (Rev3.sinkKeys sink0)) := fun k hk => hk
  have hcovF := Rev3.runTrace_keysCovered limit trace _ hup hcov0
  obtain ⟨g1, g2, g3, g4⟩ :=
    Rev3.runTrace_rerun limit trace (Rev3.initSt sink0 (Rev3.sinkKeys sink0))
      (Rev3.initSt (Rev3.fullRun limit sink0 trace).1.sink
        (Rev3.sinkKeys (Rev3.fullRun limit sink0 trace).1.sink))
      (fun k hk => hcovF k hk)
  refine ⟨g2, g3, ?_, ?_⟩
  · intro n
    exact (Rev3.runTrace_sinkInv limit (trace.take n) _ hinv0).1
  · intro n
    have hinv1 : Rev3.SinkInv
        (Rev3.initSt (Rev3.fullRun limit sink0 trace).1.sink
          (Rev3.sinkKeys (Rev3.fullRun limit sink0 trace).1.sink)) :=
      ⟨(Rev3.runTrace_sinkInv limit trace _ hinv0).1, fun k hk => hk⟩
    exact (Rev3.runTrace_sinkInv limit (trace.take n) _ hinv1).1

/-- Claim C1 witness: the theorem applied to the empty sink and a
one-page trace. -/
theorem C1_witness :
    (Rev3.sinkKeys ([] : List Rev3.OutRow)).Nodup
    ∧ Rev3.uploadsOk [FetchCall.ok [] true]
    ∧ (Rev3.fullRun 1 (Rev3.fullRun 1 [] [FetchCall.ok [] true]).1.sink
        [FetchCall.ok [] true]).1.allRows = [] := by
  have h1 : (Rev3.sinkKeys ([] : List Rev3.OutRow)).Nodup := by
    simp [Rev3.sinkKeys]
  have h2 : Rev3.uploadsOk [FetchCall.ok [] true] := by
    intro rows b hb
    have h3 := List.mem_singleton.mp hb
    injection h3 with hr hb2
  exact ⟨h1, h2, (C1_rerun_is_noop 1 [] [FetchCall.ok [] true] h1 h2).1⟩

namespace Rev3

theorem cons_range_map (a L n : Nat) :
    a :: (List.range n).map (fun i => a + L + i * L)
      = (List.range (n + 1)).map (fun i => a + i * L) := by
  rw [List.range_succ_eq_map, List.map_cons, List.map_map]
  have h1 : a + 0 * L = a := by ring
  have h2 : (fun i => a + L + i * L) = ((fun i => a + i * L) ∘ Nat.succ) := by
    funext i
    simp only [Function.comp]
    rw [Nat.succ_eq_add_one]
    ring
  rw [h1, ← h2]

/-- Pagination bookkeeping: over a trace of successful pages that are all
exactly `limit` long except the last (shorter) one, the loop breaks within
the page list — regardless of what follows — and the requests it issued
start exactly at the cumulative row counts `0, limit, 2*limit, ...`. -/
theorem runTrace_full_pages (limit : Nat) (hpos : 0 < limit) :
    ∀ (ps : List (List SrcRow)) (rest : List (FetchCall SrcRow)) (s : St),
      ps ≠ [] →
      (∀ p ∈ ps.dropLast, p.length = limit) →
      (∀ p, ps.getLast? = some p → p.length < limit) →
      ∃ s' : St,
        runTrace limit (ps.map (fun p => FetchCall.ok p true) ++ rest) s = (s', true)
        ∧ s'.requests = s.requests ++ (List.range ps.length).map (fun i => s.startRow + i * limit) := by
  intro ps
  induction ps with
  | nil => intro rest s hne; exact absurd rfl hne
  | cons p ps ih =>
      intro rest s _ hfull hlast
      cases ps with
      | nil =>
          have hp : p.length < limit := hlast p rfl
          simp only [List.map_cons, List.map_nil, List.nil_append, List.cons_append, runTrace]
          by_cases he : p.isEmpty
          · rw [if_pos he]
            refine ⟨reqLog s, rfl, ?_⟩
            simp [reqLog, List.range_succ]
          · rw [if_neg he, if_pos hp]
            refine ⟨pageStep s p true, rfl, ?_⟩
            simp [pageStep, List.range_succ]
      | cons q qs =>
          have hp : p.length = limit := hfull p (by simp)
          have he : ¬ p.isEmpty = true := by
            rw [List.isEmpty_iff_length_eq_zero]
            omega
          have hnl : ¬ p.length < limit := by omega
          simp only [List.map_cons, List.cons_append, runTrace]
          rw [if_neg he, if_neg hnl]
          obtain ⟨s', h1, h2⟩ := ih rest (advance (pageStep s p true) p.length)
            (by simp)
            (by
              intro x hx
              exact hfull x (by simp [hx]))
            (by
              intro x hx
              exact hlast x (by simp [hx]))
          refine ⟨s', h1, ?_⟩
          have hreq : (advance (pageStep s p true) p.length).requests
              = s.requests ++ [s.startRow] := rfl
          have hsr : (advance (pageStep s p true) p.length).startRow
              = s.startRow + limit := by
            show s.startRow + p.length = s.startRow + limit
            rw [hp]
          rw [h2, hreq, hsr, List.append_assoc]
          congr 1
          show s.startRow :: (List.range (qs.length + 1)).map
              (fun i => s.startRow + limit + i * limit) = _
          rw [cons_range_map]
          rfl

end Rev3

/-- Claim C6: with the source page ceiling `ROW_LIMIT` (25000), a source
that answers with pages `ps` — every page before the last exactly
`ROW_LIMIT` rows, the last fewer — makes the fetch loop issue exactly
`ps.length` requests, the i-th at `startRow = i * ROW_LIMIT` (the total
row count of the preceding pages), and break right after the last page, no
matter what the source would have answered afterwards. -/
theorem C6_pagination_terminates
    (ps : List (List Rev3.SrcRow)) (rest : List (FetchCall Rev3.SrcRow))
    (sink0 : List Rev3.OutRow) (keys0 : List String)
    (hne : ps ≠ [])
    (hfull : ∀ p ∈ ps.dropLast, p.length = Rev3.ROW_LIMIT)
    (hlast : ∀ p, ps.getLast? = some p → p.length < Rev3.ROW_LIMIT) :
    ∃ s' : Rev3.St,
      Rev3.runTrace Rev3.ROW_LIMIT (ps.map (fun p => FetchCall.ok p true) ++ rest)
        (Rev3.initSt sink0 keys0) = (s', true)
      ∧ s'.requests = (List.range ps.length).map (fun i => i * Rev3.ROW_LIMIT) := by
  obtain ⟨s', h1, h2⟩ := Rev3.runTrace_full_pages Rev3.ROW_LIMIT (by norm_num [Rev3.ROW_LIMIT])
    ps rest (Rev3.initSt sink0 keys0) hne hfull hlast
  refine ⟨s', h1, ?_⟩
  rw [h2]
  show (List.range ps.length).map (fun i => 0 + i * Rev3.ROW_LIMIT) = _
  simp

/-- Claim C6 witness: a single short (empty) page; the loop issues exactly
one request at `startRow = 0` and stops. -/
theorem C6_witness :
    ([([] : List Rev3.SrcRow)] ≠ [])
    ∧ (∀ p ∈ [([] : List Rev3.SrcRow)].dropLast, p.length = Rev3.ROW_LIMIT)
    ∧ (∀ p, [([] : List Rev3.SrcRow)].getLast? = some p → p.length < Rev3.ROW_LIMIT)
    ∧ ∃ s' : Rev3.St,
        Rev3.runTrace Rev3.ROW_LIMIT
          ([([] : List Rev3.SrcRow)].map (fun p => FetchCall.ok p true) ++ [])
          (Rev3.initSt [] []) = (s', true)
        ∧ s'.requests = (List.range [([] : List Rev3.SrcRow)].length).map
            (fun i => i * Rev3.ROW_LIMIT) := by
  have hne : [([] : List Rev3.SrcRow)] ≠ [] := by simp
  have hfull : ∀ p ∈ [([] : List Rev3.SrcRow)].dropLast, p.length = Rev3.ROW_LIMIT := by
    simp
  have hlast : ∀ p, [([] : List Rev3.SrcRow)].getLast? = some p →
      p.length < Rev3.ROW_LIMIT := by
    intro p hp
    simp only [List.getLast?_singleton, Option.some.injEq] at hp
    subst hp
    norm_num [Rev3.ROW_LIMIT]
  exact ⟨hne, hfull, hlast, C6_pagination_terminates [[]] [] [] [] hne hfull hlast⟩

/-- Claim C7: a transport exception consumes no cursor — the loop retries
with `startRow`, keys and sink untouched, only logging the repeated
request — and in the throw-then-two-rows scenario the run ends having
issued the same request twice (both at `startRow = 0`) with exactly those
two rows selected and persisted. -/
theorem C7_retry_preserves_cursor :
    (∀ (limit : Nat) (cs : List (FetchCall Rev3.SrcRow)) (s : Rev3.St),
        Rev3.runTrace limit (FetchCall.err :: cs) s = Rev3.runTrace limit cs (Rev3.reqLog s)
        ∧ (Rev3.reqLog s).startRow = s.startRow
        ∧ (Rev3.reqLog s).keys = s.keys
        ∧ (Rev3.reqLog s).sink = s.sink
        ∧ (Rev3.reqLog s).requests = s.requests ++ [s.startRow])
    ∧ (∀ r1 r2 : Rev3.SrcRow, Rev3.rowKey r1 ≠ Rev3.rowKey r2 →
        Rev3.runTrace Rev3.ROW_LIMIT [FetchCall.err, FetchCall.ok [r1, r2] true]
          (Rev3.initSt [] [])
        = (⟨0, [Rev3.rowKey r2, Rev3.rowKey r1], [Rev3.mkOut r1, Rev3.mkOut r2],
            [Rev3.mkOut r1, Rev3.mkOut r2], [0, 0]⟩, true)) := by
  constructor
  · intro limit cs s
    exact ⟨rfl, rfl, rfl, rfl, rfl⟩
  · intro r1 r2 hk
    have h21 : ¬ (Rev3.rowKey r2 = Rev3.rowKey r1) := fun h => hk h.symm
    show Rev3.runTrace Rev3.ROW_LIMIT [FetchCall.ok [r1, r2] true]
      (Rev3.reqLog (Rev3.initSt [] [])) = _
    simp only [Rev3.runTrace]
    rw [if_neg (by simp), if_pos (by norm_num [Rev3.ROW_LIMIT])]
    have hpp : Rev3.processPage [] [r1, r2]
        = ([Rev3.rowKey r2, Rev3.rowKey r1], [Rev3.mkOut r1, Rev3.mkOut r2]) := by
      simp [Rev3.processPage, Rev3.processStep, h21]
    simp [Rev3.pageStep, Rev3.reqLog, Rev3.initSt, hpp]

/-- Claim C7 witness: the scenario applied to two concrete rows whose
stable keys differ (checked by evaluating both digests). -/
theorem C7_witness :
    Rev3.rowKey ⟨("2025-09-26"), ("q1"), ("p1"), 0, 0, 0, 0⟩
      ≠ Rev3.rowKey ⟨("2025-09-26"), ("q2"), ("p2"), 0, 0, 0, 0⟩
    ∧ Rev3.runTrace Rev3.ROW_LIMIT
        [FetchCall.err, FetchCall.ok [⟨("2025-09-26"), ("q1"), ("p1"), 0, 0, 0, 0⟩,
          ⟨("2025-09-26"), ("q2"), ("p2"), 0, 0, 0, 0⟩] true]
        (Rev3.initSt [] [])
      = (⟨0, [Rev3.rowKey ⟨("2025-09-26"), ("q2"), ("p2"), 0, 0, 0, 0⟩,
             Rev3.rowKey ⟨("2025-09-26"), ("q1"), ("p1"), 0, 0, 0, 0⟩],
          [Rev3.mkOut ⟨("2025-09-26"), ("q1"), ("p1"), 0, 0, 0, 0⟩,
           Rev3.mkOut ⟨("2025-09-26"), ("q2"), ("p2"), 0, 0, 0, 0⟩],
          [Rev3.mkOut ⟨("2025-09-26"), ("q1"), ("p1"), 0, 0, 0, 0⟩,
           Rev3.mkOut ⟨("2025-09-26"), ("q2"), ("p2"), 0, 0, 0, 0⟩], [0, 0]⟩, true) := by
  have hk : Rev3.rowKey ⟨("2025-09-26"), ("q1"), ("p1"), 0, 0, 0, 0⟩
      ≠ Rev3.rowKey ⟨("2025-09-26"), ("q2"), ("p2"), 0, 0, 0, 0⟩ := by decide
  exact ⟨hk, C7_retry_preserves_cursor.2 _ _ hk⟩

/-- Claim C8: when the key query raises, `get_existing_keys` returns the
empty set rather than propagating, and the run proceeds exactly as a run
whose in-memory index starts empty. -/
theorem C8_key_load_failure_degrades_to_empty :
    (∀ e : Unit, Rev3.get_existing_keys (Except.error e) = [])
    ∧ (∀ e : Unit, SA.get_existing_keys (Except.error e) = [])
    ∧ (∀ (limit : Nat) (sink0 : List Rev3.OutRow) (trace : List (FetchCall Rev3.SrcRow))
        (e : Unit),
        Rev3.fetch_gsc_data limit (Except.error e) sink0 trace
          = Rev3.runTrace limit trace (Rev3.initSt sink0 [])) :=
  ⟨fun _ => rfl, fun _ => rfl, fun _ _ _ _ => rfl⟩

/-- Claim C9: a page's new keys enter the in-memory index during
filtering; when the page's load job fails the keys stay indexed while the
sink is untouched (though `all_rows` still grows); any row whose key is
already indexed is filtered out of a later page; and the index only ever
grows along a run. -/
theorem C9_index_mutated_before_upload :
    (∀ (limit : Nat) (s : Rev3.St) (rows : List Rev3.SrcRow), rows ≠ [] →
        ((Rev3.runTrace limit [FetchCall.ok rows false] s).1.keys
            = (Rev3.processPage s.keys rows).1
         ∧ (Rev3.runTrace limit [FetchCall.ok rows false] s).1.sink = s.sink
         ∧ (Rev3.runTrace limit [FetchCall.ok rows false] s).1.allRows
            = s.allRows ++ (Rev3.processPage s.keys rows).2))
    ∧ (∀ (keys : List String) (rows : List Rev3.SrcRow),
        (∀ r ∈ rows, Rev3.rowKey r ∈ keys) → Rev3.processPage keys rows = (keys, []))
    ∧ (∀ (limit : Nat) (trace : List (FetchCall Rev3.SrcRow)) (s : Rev3.St) (k : String),
        k ∈ s.keys → k ∈ (Rev3.runTrace limit trace s).1.keys) := by
  refine ⟨?_, Rev3.processPage_all_dup, Rev3.runTrace_keys_mono⟩
  intro limit s rows hne
  have he : ¬ rows.isEmpty = true := by
    rw [List.isEmpty_iff_length_eq_zero]
    intro h0
    exact hne (List.length_eq_zero.mp h0)
  simp only [Rev3.runTrace]
  rw [if_neg he]
  by_cases hl : rows.length < limit
  · rw [if_pos hl]
    exact ⟨rfl, rfl, rfl⟩
  · rw [if_neg hl]
    exact ⟨rfl, rfl, rfl⟩

/-- Claim C9 witness: the three parts applied to a concrete row, state and
key. -/
theorem C9_witness :
    (([⟨("2025-01-01"), ("q"), ("p"), 0, 0, 0, 0⟩] : List Rev3.SrcRow) ≠ [])
    ∧ (Rev3.runTrace 1 [FetchCall.ok [⟨("2025-01-01"), ("q"), ("p"), 0, 0, 0, 0⟩] false]
        (Rev3.initSt [] [])).1.sink = (Rev3.initSt [] []).sink
    ∧ Rev3.processPage [Rev3.rowKey ⟨("2025-01-01"), ("q"), ("p"), 0, 0, 0, 0⟩]
        [⟨("2025-01-01"), ("q"), ("p"), 0, 0, 0, 0⟩]
        = ([Rev3.rowKey ⟨("2025-01-01"), ("q"), ("p"), 0, 0, 0, 0⟩], [])
    ∧ (("k") ∈ (Rev3.runTrace 1 [] (Rev3.initSt [] [("k")])).1.keys) := by
  have hne : ([⟨("2025-01-01"), ("q"), ("p"), 0, 0, 0, 0⟩] : List Rev3.SrcRow) ≠ [] := by
    simp
  refine ⟨hne, (C9_index_mutated_before_upload.1 1 (Rev3.initSt [] []) _ hne).2.1, ?_, ?_⟩
  · refine C9_index_mutated_before_upload.2.1 _ _ ?_
    intro x hx
    rw [List.mem_singleton.mp hx]
    exact List.mem_singleton.mpr rfl
  · exact C9_index_mutated_before_upload.2.2 1 [] _ ("k") (List.mem_singleton.mpr rfl)

/-- Claim C10: in `gsc-to-bq.py` no `generate_key` is defined, so
processing any nonempty page evaluates an unbound name and raises
`NameError` before any row is keyed, appended or written — the crash state
carries the untouched sink. -/
theorem C10_rev1_generate_key_undefined :
    (Rev1.generate_key = none)
    ∧ (∀ (rows : List Rev3.SrcRow) (keys : List String) (acc : List Rev3.OutRow),
        rows ≠ [] → Rev1.processRows rows keys acc = Except.error Rev1.PyErr.nameError)
    ∧ (∀ (limit : Nat) (cs : List Rev1.Rev1Call) (s : Rev1.St) (rows : List Rev3.SrcRow),
        rows ≠ [] →
        Rev1.runTrace limit (Rev1.Rev1Call.ok rows :: cs) s
          = Except.error (Rev1.PyErr.nameError,
              { s with requests := s.requests ++ [s.startRow] })) := by
  refine ⟨rfl, ?_, ?_⟩
  · intro rows keys acc hne
    cases rows with
    | nil => exact absurd rfl hne
    | cons r rs => rfl
  · intro limit cs s rows hne
    cases rows with
    | nil => exact absurd rfl hne
    | cons r rs =>
        simp only [Rev1.runTrace]
        rw [if_neg (by simp)]
        rfl

/-- Claim C10 witness: the NameError evaluation at a concrete one-row
page. -/
theorem C10_witness :
    (([⟨("d"), ("q"), ("p"), 0, 0, 0, 0⟩] : List Rev3.SrcRow) ≠ [])
    ∧ Rev1.processRows [⟨("d"), ("q"), ("p"), 0, 0, 0, 0⟩] [] []
        = Except.error Rev1.PyErr.nameError
    ∧ Rev1.runTrace 1 [Rev1.Rev1Call.ok [⟨("d"), ("q"), ("p"), 0, 0, 0, 0⟩]]
        ⟨0, [], [], [], []⟩
        = Except.error (Rev1.PyErr.nameError, ⟨0, [], [], [], [0]⟩) := by
  have hne : ([⟨("d"), ("q"), ("p"), 0, 0, 0, 0⟩] : List Rev3.SrcRow) ≠ [] := by simp
  refine ⟨hne, C10_rev1_generate_key_undefined.2.1 _ [] [] hne, ?_⟩
  have h := C10_rev1_generate_key_undefined.2.2 1 [] ⟨0, [], [], [], []⟩ _ hne
  simpa using h

/-- Claim C2 (failing run): the sitewide `['date']` batch over the one-day
range 2025-01-01, with a source answering no rows and an empty sink and
index: step 2 synthesizes and indexes the placeholder for the missing day
(the in-memory key set ends with one entry), but the rebinding of
`placeholders_only` at line 581 discards the synthesized list, so nothing
is uploaded — the sink stays empty, no row covers the day, where the
claim requires at least one row for the one-day range. -/
theorem C2_sitewide_gap_not_filled :
    (WebFF.fetch_sitewide_batch WebFF.ROW_LIMIT [] [] [] [FetchCall.ok [] true]
       [("2025-01-01")]).1.sink = []
    ∧ (WebFF.fetch_sitewide_batch WebFF.ROW_LIMIT [] [] [] [FetchCall.ok [] true]
       [("2025-01-01")]).1.totalNew = 0
    ∧ ((WebFF.fetch_sitewide_batch WebFF.ROW_LIMIT [] [] [] [FetchCall.ok [] true]
       [("2025-01-01")]).1.keys).length = 1 := by
  exact ⟨rfl, rfl, rfl⟩

/-- A candidate row whose `unique_key` already sits in the sink, used to
exhibit the missing pre-write filter of the web-fullfetch upload path. -/
def webRowDup : WebFF.WebRow :=
  { Date := ("2025-01-01"), Query := ("q"), Page := ("p"), Country := ("c"),
    Device := ("d"), SearchAppearance := ("sa"), Clicks := some 1,
    Impressions := some 1, CTR := some 0, Position := some 0,
    SearchType := ("web"), unique_key := ("k") }

/-- Claim C3 counterexample: the web-fullfetch raw-data append performs no
pre-write key re-query — a candidate row whose `unique_key` is already
present in the target table is appended again and counted as written, so
the table then holds that key twice, contradicting the claim that every
append the pipeline performs drops already-present keys. -/
theorem C3_counterexample :
    WebFF.upload_to_bq [webRowDup] [webRowDup] true = ([webRowDup, webRowDup], 1)
    ∧ ((WebFF.upload_to_bq [webRowDup] [webRowDup] true).1.map
        (fun r => r.unique_key)).count ("k") = 2 := by
  exact ⟨rfl, rfl⟩

/-- Claim C3 (amended): the search-appearance script's `upload_to_bq`
does, for every nonempty candidate batch, re-query the target table's
keys, drop every candidate whose key is present, append only the
remainder (append-only), and report the counts of rows offered, written,
and skipped as duplicates; the web-fullfetch script's `upload_to_bq`
instead appends its candidate frame as-is with `WRITE_APPEND`, reporting
only the written count — its duplicate protection lives upstream in the
in-memory filter, not in the writer. -/
theorem C3_prewrite_filter :
    (∀ (df sink : List SA.SARow), df ≠ [] →
        ((SA.upload_to_bq df sink true true).2
            = sink ++ (df.map SA.coerceNumeric).filter
                (fun r => decide (r.unique_key ∉ SA.sinkKeysSA sink))
         ∧ (SA.upload_to_bq df sink true true).1
            = ⟨df.length,
               ((df.map SA.coerceNumeric).filter
                 (fun r => decide (r.unique_key ∉ SA.sinkKeysSA sink))).length,
               df.length - ((df.map SA.coerceNumeric).filter
                 (fun r => decide (r.unique_key ∉ SA.sinkKeysSA sink))).length⟩
         ∧ (∀ r ∈ (SA.upload_to_bq df sink true true).2,
              r ∈ sink ∨ (r ∈ df.map SA.coerceNumeric
                ∧ r.unique_key ∉ SA.sinkKeysSA sink))))
    ∧ (∀ (df sink : List WebFF.WebRow), df ≠ [] →
        WebFF.upload_to_bq df sink true = (sink ++ df, df.length)) := by
  constructor
  · intro df sink hdf
    have he : ¬ df.isEmpty = true := by
      rw [List.isEmpty_iff_length_eq_zero]
      intro h0
      exact hdf (List.length_eq_zero.mp h0)
    have hmem : ∀ r ∈ sink ++ (df.map SA.coerceNumeric).filter
        (fun r => decide (r.unique_key ∉ SA.sinkKeysSA sink)),
        r ∈ sink ∨ (r ∈ df.map SA.coerceNumeric ∧ r.unique_key ∉ SA.sinkKeysSA sink) := by
      intro r hr
      rcases List.mem_append.mp hr with hr | hr
      · exact Or.inl hr
      · have h2 := List.mem_filter.mp hr
        exact Or.inr ⟨h2.1, of_decide_eq_true h2.2⟩
    simp only [SA.upload_to_bq, if_true]
    rw [if_neg he]
    by_cases hf : ((df.map SA.coerceNumeric).filter
        (fun r => decide (r.unique_key ∉ SA.sinkKeysSA sink))).isEmpty
    · rw [if_pos hf]
      have hfe : ((df.map SA.coerceNumeric).filter
          (fun r => decide (r.unique_key ∉ SA.sinkKeysSA sink))) = [] :=
        List.length_eq_zero.mp (List.isEmpty_iff_length_eq_zero.mp hf)
      refine ⟨by rw [hfe]; simp, rfl, ?_⟩
      intro r hr
      exact hmem r (by rw [hfe]; simpa using hr)
    · rw [if_neg hf]
      exact ⟨rfl, rfl, hmem⟩
  · intro df sink hdf
    have he : ¬ df.isEmpty = true := by
      rw [List.isEmpty_iff_length_eq_zero]
      intro h0
      exact hdf (List.length_eq_zero.mp h0)
    simp only [WebFF.upload_to_bq, if_true]
    rw [if_neg he]

/-- A concrete fresh search-appearance candidate row for the Sink Writer
witness. -/
def saRowFresh : SA.SARow :=
  ⟨("2025-01-01"), ("x"), some 1, some 2, some 0, some 3, ("2025-01-02"), ("f1"), ("ka")⟩

/-- Claim C3 witness: both upload paths applied to concrete one-row
frames. -/
theorem C3_witness :
    (([saRowFresh] : List SA.SARow) ≠ [])
    ∧ (SA.upload_to_bq [saRowFresh] [] true true).1 = ⟨1, 1, 0⟩
    ∧ (([webRowDup] : List WebFF.WebRow) ≠ [])
    ∧ WebFF.upload_to_bq [webRowDup] [] true = ([] ++ [webRowDup], 1) := by
  have h1 : ([saRowFresh] : List SA.SARow) ≠ [] := by simp
  have h2 : ([webRowDup] : List WebFF.WebRow) ≠ [] := by simp
  refine ⟨h1, ?_, h2, (C3_prewrite_filter.2 [webRowDup] [] h2)⟩
  have h3 := (C3_prewrite_filter.1 [saRowFresh] [] h1).2.1
  rw [h3]
  rfl
